import Mathlib

/-!
Verification development for the Blender compositor's cached-image resource
container (`source/blender/compositor/cached_resources/intern/cached_image.cc`)
and the compositor node-graph utilities
(`source/blender/compositor/intern/utilities.cc`).

The C++ code is shallowly embedded: `blender::Map` instances become association
lists, pointers become `Option`, and the stateful `CachedImageContainer::get`
becomes a pure function that returns the updated container and evaluation
context together with the produced `Result`.  External collaborators that are
declared but not defined in the analysed sources (`BKE_image_*`, `IMB_*`,
`Context::query_id_recalc_flag`, the derived-node-tree traversals) are modelled
from the specification, as fields of the corresponding structures or as
explicitly marked definitions.
-/

set_option autoImplicit false

namespace blender.compositor

/-! ### Association lists

`blender::Map` keeps at most one binding per key with respect to the map's
equality operator.  We model a map as a list of key/value pairs searched with
an explicit boolean equality `beq`; insertion replaces every `beq`-matching
binding (there is at most one in well-formed maps) or appends a fresh one. -/

/-- First value bound to a `beq`-matching key, like `blender::Map::lookup_ptr`. -/
def alistFind {α β : Type} (beq : α → α → Bool) : List (α × β) → α → Option β
  | [], _ => none
  | (k, v) :: rest, a => if beq k a then some v else alistFind beq rest a

/-- The replacement function used when a binding for `a` already exists. -/
def alistReplace {α β : Type} (beq : α → α → Bool) (a : α) (v : β) (e : α × β) : α × β :=
  if beq e.1 a then (e.1, v) else e

/-- Bind `a` to `v`: replace the matching binding when present, append otherwise.
Models the write performed by `lookup_or_add_cb` / `lookup_or_add_default`. -/
def alistSet {α β : Type} (beq : α → α → Bool) (l : List (α × β)) (a : α) (v : β) :
    List (α × β) :=
  if (alistFind beq l a).isSome then l.map (alistReplace beq a v) else l ++ [(a, v)]

theorem alistFind_nil {α β : Type} (beq : α → α → Bool) (a : α) :
    alistFind beq ([] : List (α × β)) a = none := rfl

theorem alistFind_cons {α β : Type} (beq : α → α → Bool) (k : α) (v : β)
    (rest : List (α × β)) (a : α) :
    alistFind beq ((k, v) :: rest) a = if beq k a then some v else alistFind beq rest a := rfl

theorem alistFind_append {α β : Type} (beq : α → α → Bool) (l l' : List (α × β)) (a : α) :
    alistFind beq (l ++ l') a =
      match alistFind beq l a with
      | some v => some v
      | none => alistFind beq l' a := by
  induction l with
  | nil => simp [alistFind]
  | cons e rest ih =>
    obtain ⟨k, w⟩ := e
    by_cases hk : beq k a = true
    · simp [alistFind_cons, hk]
    · simp only [Bool.not_eq_true] at hk
      simp [alistFind_cons, hk, ih]

theorem alistFind_map_replace {α β : Type} (beq : α → α → Bool) (l : List (α × β))
    (a : α) (v : β) :
    alistFind beq (l.map (alistReplace beq a v)) a =
      (alistFind beq l a).map (fun _ => v) := by
  induction l with
  | nil => rfl
  | cons e rest ih =>
    obtain ⟨k, w⟩ := e
    by_cases hk : beq k a = true
    · simp [alistReplace, alistFind_cons, hk]
    · simp only [Bool.not_eq_true] at hk
      simp [alistReplace, alistFind_cons, hk, ih]

theorem alist_map_replace_of_missing {α β : Type} (beq : α → α → Bool) (l : List (α × β))
    (a : α) (v : β) (h : alistFind beq l a = none) :
    l.map (alistReplace beq a v) = l := by
  induction l with
  | nil => rfl
  | cons e rest ih =>
    obtain ⟨k, w⟩ := e
    by_cases hk : beq k a = true
    · simp [alistFind_cons, hk] at h
    · simp only [Bool.not_eq_true] at hk
      rw [alistFind_cons, hk] at h
      simp only [Bool.false_eq_true, ite_false] at h
      simp [alistReplace, hk, ih h]

theorem alistSet_of_found {α β : Type} (beq : α → α → Bool) (l : List (α × β))
    (a : α) (v : β) (h : (alistFind beq l a).isSome = true) :
    alistSet beq l a v = l.map (alistReplace beq a v) := by
  unfold alistSet
  rw [if_pos h]

theorem alistSet_of_missing {α β : Type} (beq : α → α → Bool) (l : List (α × β))
    (a : α) (v : β) (h : alistFind beq l a = none) :
    alistSet beq l a v = l ++ [(a, v)] := by
  unfold alistSet
  rw [h]
  rfl

theorem alistFind_alistSet_self {α β : Type} (beq : α → α → Bool) (l : List (α × β))
    (a : α) (v : β) (hrefl : beq a a = true) :
    alistFind beq (alistSet beq l a v) a = some v := by
  cases hf : alistFind beq l a with
  | some w =>
    rw [alistSet_of_found beq l a v (by rw [hf]; rfl), alistFind_map_replace, hf]
    rfl
  | none =>
    rw [alistSet_of_missing beq l a v hf, alistFind_append, hf]
    simp [alistFind_cons, hrefl]

theorem alistSet_alistSet_self {α β : Type} (beq : α → α → Bool) (l : List (α × β))
    (a : α) (v : β) (hrefl : beq a a = true) :
    alistSet beq (alistSet beq l a v) a v = alistSet beq l a v := by
  have hfound : (alistFind beq (alistSet beq l a v) a).isSome = true := by
    rw [alistFind_alistSet_self beq l a v hrefl]; rfl
  rw [alistSet_of_found beq (alistSet beq l a v) a v hfound]
  cases hf : alistFind beq l a with
  | some w =>
    rw [alistSet_of_found beq l a v (by rw [hf]; rfl), List.map_map]
    apply List.map_congr_left
    intro e _
    by_cases hk : beq e.1 a = true
    · simp [alistReplace, hk]
    · simp only [Bool.not_eq_true] at hk
      simp [alistReplace, hk]
  | none =>
    rw [alistSet_of_missing beq l a v hf, List.map_append,
      alist_map_replace_of_missing beq l a v hf]
    simp [alistReplace, hrefl]

/-! ### Data model for `cached_image.cc`

`ImageUser` keeps exactly the DNA fields the analysed code reads or writes:
`framenr`, `layer`, `view` and `pass`. -/

structure ImageUser where
  framenr : Int
  layer : Int
  view : Int
  pass : Int
deriving DecidableEq, Repr

/-- Key of a cached image: the image user together with the pass name, exactly
as in `CachedImageKey` (the constructor stores both members verbatim). -/
structure CachedImageKey where
  image_user : ImageUser
  pass_name : String
deriving DecidableEq, Repr

/-- Equality of keys per `operator==(const CachedImageKey &, const CachedImageKey &)`:
only `framenr`, `layer`, `view` and `pass_name` are compared (the `pass` member of
the stored image user is ignored). -/
def CachedImageKey.beq (a b : CachedImageKey) : Bool :=
  a.image_user.framenr == b.image_user.framenr && a.image_user.layer == b.image_user.layer &&
    a.image_user.view == b.image_user.view && a.pass_name == b.pass_name

/-- Modelled from the spec: `get_default_hash` of `BLI_hash.hh` is not in the
analysed sources; the spec only requires a pure, order-independent combination
of the field hashes, so a 64-bit affine mixing step stands in for it. -/
def hash_mix (a b : Nat) : Nat := (a * 6364136223846793005 + b + 1442695040888963407) % 2 ^ 64

/-- Modelled from the spec: hash of a machine integer, folded into 64 bits. -/
def int_hash (i : Int) : Nat := (i % (2 ^ 64 : Int)).toNat

/-- Modelled from the spec: hash of a string as a fold of the character hashes. -/
def string_hash (s : String) : Nat := s.foldl (fun h c => hash_mix h c.toNat) 5381

/-- Modelled from the spec: the `get_default_hash(a, b, c, d)` combination used by
`CachedImageKey::hash`. -/
def get_default_hash (a b c : Int) (s : String) : Nat :=
  hash_mix (hash_mix (hash_mix (int_hash a) (int_hash b)) (int_hash c)) (string_hash s)

/-- Hash per `CachedImageKey::hash`: a pure function of `framenr`, `layer`,
`view` and `pass_name`. -/
def CachedImageKey.hash (key : CachedImageKey) : Nat :=
  get_default_hash key.image_user.framenr key.image_user.layer key.image_user.view key.pass_name

/-- Opaque pixel contents of an `ImBuf`; no analysed claim inspects pixels. -/
structure ImBuf where
  data : Nat
deriving DecidableEq, Repr

/-- Render layer of a multilayer image: its name and the names of its passes
(`render_layer->passes`, searched by `BLI_findstringindex` on the pass name). -/
structure RenderLayer where
  name : String
  passes : List String
deriving DecidableEq, Repr

/-- Image datablock, restricted to what `cached_image.cc` reads.  Fields whose
C++ implementation lives outside the analysed sources (`BKE_image_*`, the IMB
linearization pipeline) are modelled from the specification as pure functions
carried by the image. -/
structure Image where
  /-- Name of the datablock, `image->id.name`. -/
  id_name : String
  /-- Name of the owning library, `image->id.lib->id.name`, when any. -/
  lib_name : Option String
  /-- Modelled from the spec: `BKE_image_is_multiview` (not in the analysed sources). -/
  is_multiview : Bool
  /-- Modelled from the spec: `BKE_image_is_multilayer` (not in the analysed sources). -/
  is_multilayer : Bool
  /-- Render layers of the image, `image->rr->layers`. -/
  rr_layers : List RenderLayer
  /-- View names of the image, `image->rr->views`. -/
  rr_views : List String
  /-- Modelled from the spec: `BKE_image_user_frame_calc` (not in the analysed
  sources) — the effective frame of the image for a given scene frame. -/
  frame_calc : Int → Int
  /-- Modelled from the spec: `BKE_image_acquire_ibuf` (not in the analysed
  sources) — `none` when the source image can yield no buffer at all, otherwise
  one buffer per image user. -/
  buffer : Option (ImageUser → ImBuf)
  /-- Modelled from the spec: the IMB colorspace pipeline inside
  `compute_linear_buffer` (linearization and alpha pre-multiplication) as a pure
  buffer transformation. -/
  linearize : ImBuf → ImBuf
  /-- Modelled from the spec: `BKE_image_multilayer_index` (not in the analysed
  sources), which finalises the image user for multilayer buffer retrieval. -/
  multilayer_index : ImageUser → ImageUser
  /-- Modelled from the spec: `BKE_image_multiview_index` (not in the analysed
  sources), which finalises the image user for multiview buffer retrieval. -/
  multiview_index : ImageUser → ImageUser

/-- Owner identity used by the container, `image->id.name` concatenated with the
library name (empty when the image is local). -/
def Image.id_key (image : Image) : String := image.id_name ++ image.lib_name.getD ""

/-- Evaluation context, restricted to what `cached_image.cc` consumes: the scene
frame number, the active view name, the device mode and the per-ID recalculation
flags (as the set of owner identities whose flag is set). -/
structure Context where
  frame_number : Int
  view_name : String
  use_gpu : Bool
  recalc_ids : List String
deriving DecidableEq, Repr

/-- Modelled from the spec: `Context::query_id_recalc_flag` is only declared in
`COM_context.hh`, which is not in the analysed sources.  Per the call-site
comment ("Invalidate the cache for that image ID if it was changed and reset
the recalculate flag") the query returns the flag and resets it, so the model
removes the identity from the set of flagged IDs.  `ID_RECALC_ALL` masks every
bit, so the bitmask degenerates to a boolean. -/
def Context.query_id_recalc_flag (context : Context) (id_key : String) : Bool × Context :=
  (context.recalc_ids.contains id_key,
   { context with recalc_ids := context.recalc_ids.filter (fun s => s != id_key) })

/-- Compositor result handle.  A default-constructed `Result(context)` is the
empty sentinel; a computed result carries the linearized buffer and whether it
is GPU-resident (`context.use_gpu()` branch of the `CachedImage` constructor). -/
inductive Result where
  | empty
  | loaded (buffer : ImBuf) (on_gpu : Bool)
deriving DecidableEq, Repr

/-- Embeds `get_render_layer`: `BLI_findlink` into `image->rr->layers`, which
yields null for an out-of-range index. -/
def get_render_layer (image : Image) (image_user : ImageUser) : Option RenderLayer :=
  if image_user.layer < 0 then none else image.rr_layers.get? image_user.layer.toNat

/-- Embeds `BLI_findstringindex`: index of the first string equal to `name`,
`-1` when there is none. -/
def find_string_index (l : List String) (name : String) : Int :=
  match l.findIdx? (fun s => s == name) with
  | some i => Int.ofNat i
  | none => -1

/-- Embeds `get_pass_index`.  The C++ dereferences the render layer without a
null check; the model totalizes that case to "not found". -/
def get_pass_index (image : Image) (image_user : ImageUser) (name : String) : Int :=
  match get_render_layer image image_user with
  | some render_layer => find_string_index render_layer.passes name
  | none => -1

/-- Embeds `get_view_index`: 0 for non-multi-view images or a single view,
`view - 1` for an explicitly selected view, and otherwise the index of the view
matching the context's view name ("All" mode), falling back to 0. -/
def get_view_index (context : Context) (image : Image) (image_user : ImageUser) : Int :=
  if !image.is_multiview then 0
  else if image.rr_views.length < 2 then 0
  else if image_user.view != 0 then image_user.view - 1
  else
    let matched_view := find_string_index image.rr_views context.view_name
    if matched_view == -1 then 0 else matched_view

/-- Embeds `compute_image_user_for_pass`: set the needed view, then the needed
pass for multilayer images (finalised by `BKE_image_multilayer_index`), or the
multiview index otherwise. -/
def compute_image_user_for_pass (context : Context) (image : Image)
    (image_user : ImageUser) (pass_name : String) : ImageUser :=
  let image_user_for_pass := { image_user with view := get_view_index context image image_user }
  if image.is_multilayer then
    image.multilayer_index
      { image_user_for_pass with
        pass := get_pass_index image image_user_for_pass pass_name }
  else
    image.multiview_index image_user_for_pass

/-- Cached entry: the computed result plus the liveness flag.  `CachedResource`
declares `needed` with default `true`; the container sets it after every `get`
anyway. -/
structure CachedImage where
  result : Result
  needed : Bool
deriving DecidableEq, Repr

/-- Embeds the `CachedImage` constructor.  Acquiring the initial image buffer
validates the image: when the source yields no buffer the constructor returns
early and `result` stays the default empty sentinel.  Otherwise the image user
for the pass is computed, the pass buffer acquired and linearized, and the
result is populated (GPU texture wrap or CPU copy according to the context's
device mode).  Cryptomatte metadata population is omitted: no analysed claim
mentions it. -/
def CachedImage.make (context : Context) (image : Image) (image_user : ImageUser)
    (pass_name : String) : CachedImage :=
  match image.buffer with
  | none => { result := Result.empty, needed := true }
  | some acquire =>
    let image_user_for_pass := compute_image_user_for_pass context image image_user pass_name
    let image_buffer := acquire image_user_for_pass
    let linear_image_buffer := image.linearize image_buffer
    { result := Result.loaded linear_image_buffer context.use_gpu, needed := true }

/-! ### Cached image container -/

/-- Boolean equality on owner identities (the outer map's key type is
`std::string`). -/
def strBeq (a b : String) : Bool := a == b

/-- Inner map of the container: cached images of one owner, keyed by
`CachedImageKey` under `CachedImageKey.beq`. -/
abbrev CachedImagesForId := List (CachedImageKey × CachedImage)

/-- Embeds the `CachedImageContainer` class: `map_` maps owner identities to
the owner's cached images. -/
structure CachedImageContainer where
  map_ : List (String × CachedImagesForId)
deriving DecidableEq, Repr

/-- Embeds `CachedImageContainer::reset`: first remove, per owner, the entries
whose `needed` flag is false; then remove owners whose map became empty; then
clear the `needed` flag of every surviving entry. -/
def CachedImageContainer.reset (container : CachedImageContainer) : CachedImageContainer :=
  let pruned := container.map_.map (fun e => (e.1, e.2.filter (fun item => item.2.needed)))
  let survivors := pruned.filter (fun e => !e.2.isEmpty)
  { map_ := survivors.map (fun e =>
      (e.1, e.2.map (fun item => (item.1, { item.2 with needed := false })))) }

/-- Return value of `CachedImageContainer::get` together with the updated
container and context, and whether the factory (the `CachedImage` constructor
inside `lookup_or_add_cb`) was invoked. -/
structure GetResult where
  result : Result
  container : CachedImageContainer
  context : Context
  invoked : Bool
deriving DecidableEq, Repr

/-- Embeds `CachedImageContainer::get`.  Null image or image user returns the
default empty result immediately.  Otherwise the effective frame is computed,
the key built, the owner's map looked up (created empty when absent, as
`lookup_or_add_default` does), cleared when the owner's recalculation flag is
set, and the entry looked up or created by the factory; the entry's `needed`
flag is set and its result returned. -/
def CachedImageContainer.get (container : CachedImageContainer) (context : Context)
    (image : Option Image) (image_user : Option ImageUser) (pass_name : String) : GetResult :=
  match image, image_user with
  | some image, some image_user =>
    let image_user_for_frame :=
      { image_user with framenr := image.frame_calc context.frame_number }
    let key : CachedImageKey := { image_user := image_user_for_frame, pass_name := pass_name }
    let id_key := image.id_key
    let cached_images_for_id := (alistFind strBeq container.map_ id_key).getD []
    let (recalc, context) := context.query_id_recalc_flag id_key
    let cached_images_for_id := if recalc then [] else cached_images_for_id
    match alistFind CachedImageKey.beq cached_images_for_id key with
    | some cached_image =>
      let new_images := alistSet CachedImageKey.beq cached_images_for_id key
        { cached_image with needed := true }
      { result := cached_image.result,
        container := { map_ := alistSet strBeq container.map_ id_key new_images },
        context := context,
        invoked := false }
    | none =>
      let cached_image := CachedImage.make context image image_user_for_frame pass_name
      let new_images := alistSet CachedImageKey.beq cached_images_for_id key
        { cached_image with needed := true }
      { result := cached_image.result,
        container := { map_ := alistSet strBeq container.map_ id_key new_images },
        context := context,
        invoked := true }
  | _, _ =>
    { result := Result.empty, container := container, context := context, invoked := false }

/-- Entry stored for owner `id_key` under `key`, if any. -/
def CachedImageContainer.lookup (container : CachedImageContainer) (id_key : String)
    (key : CachedImageKey) : Option CachedImage :=
  match alistFind strBeq container.map_ id_key with
  | none => none
  | some cached_images_for_id => alistFind CachedImageKey.beq cached_images_for_id key

/-- Key that `get` builds for the given context, image, image user and pass name. -/
def getKey (context : Context) (image : Image) (image_user : ImageUser)
    (pass_name : String) : CachedImageKey :=
  { image_user := { image_user with framenr := image.frame_calc context.frame_number },
    pass_name := pass_name }

/-! ### Basic facts about keys, the context query and `get` -/

theorem CachedImageKey.beq_refl (k : CachedImageKey) : CachedImageKey.beq k k = true := by
  simp [CachedImageKey.beq]

theorem strBeq_refl (s : String) : strBeq s s = true := by
  simp [strBeq]

theorem contains_filter_bne (l : List String) (a : String) :
    (l.filter (fun s => s != a)).contains a = false := by
  induction l with
  | nil => rfl
  | cons x xs ih =>
    by_cases hx : x = a
    · subst hx
      simp [ih]
    · have hx' : ¬a = x := fun h => hx h.symm
      simp [List.filter_cons, List.contains_cons, hx, hx', ih]

theorem filter_bne_idem (l : List String) (a : String) :
    (l.filter (fun s => s != a)).filter (fun s => s != a) = l.filter (fun s => s != a) := by
  induction l with
  | nil => rfl
  | cons x xs ih =>
    by_cases hx : x = a
    · subst hx
      simp [ih]
    · simp [List.filter_cons, hx, ih]

/-- Context after `get` consumed the recalculation flag of `id_key`. -/
def consume (context : Context) (id_key : String) : Context :=
  { context with recalc_ids := context.recalc_ids.filter (fun s => s != id_key) }

/-- Inner map `get` performs the key lookup in: the owner's cached images,
cleared when the owner's recalculation flag is set. -/
def getInner (container : CachedImageContainer) (context : Context) (image : Image) :
    CachedImagesForId :=
  if context.recalc_ids.contains image.id_key then []
  else (alistFind strBeq container.map_ image.id_key).getD []

/-- State produced by `get` once the looked-up or freshly constructed entry is
known. -/
def getOutcome (container : CachedImageContainer) (context1 : Context) (id_key : String)
    (inner : CachedImagesForId) (key : CachedImageKey) (cached_image : CachedImage)
    (invoked : Bool) : GetResult :=
  let new_images := alistSet CachedImageKey.beq inner key { cached_image with needed := true }
  { result := cached_image.result,
    container := { map_ := alistSet strBeq container.map_ id_key new_images },
    context := context1,
    invoked := invoked }

theorem get_some_eq (container : CachedImageContainer) (context : Context) (image : Image)
    (image_user : ImageUser) (pass_name : String) :
    container.get context (some image) (some image_user) pass_name =
      match alistFind CachedImageKey.beq (getInner container context image)
          (getKey context image image_user pass_name) with
      | some cached_image =>
        getOutcome container (consume context image.id_key) image.id_key
          (getInner container context image) (getKey context image image_user pass_name)
          cached_image false
      | none =>
        getOutcome container (consume context image.id_key) image.id_key
          (getInner container context image) (getKey context image image_user pass_name)
          (CachedImage.make (consume context image.id_key) image
            (getKey context image image_user pass_name).image_user pass_name)
          true := rfl

theorem consume_consume (context : Context) (id_key : String) :
    consume (consume context id_key) id_key = consume context id_key := by
  unfold consume
  simp only [filter_bne_idem]

theorem getKey_consume (context : Context) (image : Image) (image_user : ImageUser)
    (pass_name : String) (id_key : String) :
    getKey (consume context id_key) image image_user pass_name =
      getKey context image image_user pass_name := rfl

theorem get_after_outcome (container : CachedImageContainer) (context : Context)
    (image : Image) (image_user : ImageUser) (pass_name : String)
    (cached_image : CachedImage) (invoked : Bool) :
    (getOutcome container (consume context image.id_key) image.id_key
        (getInner container context image) (getKey context image image_user pass_name)
        cached_image invoked).container.get
      (getOutcome container (consume context image.id_key) image.id_key
        (getInner container context image) (getKey context image image_user pass_name)
        cached_image invoked).context (some image) (some image_user) pass_name =
    { result := cached_image.result,
      container := (getOutcome container (consume context image.id_key) image.id_key
        (getInner container context image) (getKey context image image_user pass_name)
        cached_image invoked).container,
      context := (getOutcome container (consume context image.id_key) image.id_key
        (getInner container context image) (getKey context image image_user pass_name)
        cached_image invoked).context,
      invoked := false } := by
  rw [get_some_eq]
  simp [getOutcome, getInner, consume, getKey, contains_filter_bne, filter_bne_idem,
    alistFind_alistSet_self, alistSet_alistSet_self, CachedImageKey.beq_refl, strBeq_refl]

/-- Stability of `get`: immediately repeating a `get` with the same arguments
returns the same result, leaves the container and context unchanged, and does
not invoke the factory. -/
theorem get_stable (container : CachedImageContainer) (context : Context) (image : Image)
    (image_user : ImageUser) (pass_name : String) (r : GetResult)
    (hr : container.get context (some image) (some image_user) pass_name = r) :
    r.container.get r.context (some image) (some image_user) pass_name =
      { result := r.result, container := r.container, context := r.context,
        invoked := false } := by
  subst hr
  rw [get_some_eq container context image image_user pass_name]
  cases hfind : alistFind CachedImageKey.beq (getInner container context image)
      (getKey context image image_user pass_name) with
  | some cached_image =>
    exact get_after_outcome container context image image_user pass_name cached_image false
  | none =>
    exact get_after_outcome container context image image_user pass_name
      (CachedImage.make (consume context image.id_key) image
        (getKey context image image_user pass_name).image_user pass_name) true

theorem get_miss (container : CachedImageContainer) (context : Context) (image : Image)
    (image_user : ImageUser) (pass_name : String)
    (hmiss : container.lookup image.id_key (getKey context image image_user pass_name) = none) :
    container.get context (some image) (some image_user) pass_name =
      getOutcome container (consume context image.id_key) image.id_key
        (getInner container context image) (getKey context image image_user pass_name)
        (CachedImage.make (consume context image.id_key) image
          (getKey context image image_user pass_name).image_user pass_name) true := by
  rw [get_some_eq]
  have h : alistFind CachedImageKey.beq (getInner container context image)
      (getKey context image image_user pass_name) = none := by
    unfold getInner
    by_cases hc : context.recalc_ids.contains image.id_key
    · rw [if_pos hc]
      rfl
    · rw [if_neg hc]
      unfold CachedImageContainer.lookup at hmiss
      cases hff : alistFind strBeq container.map_ image.id_key with
      | none => rfl
      | some l =>
        rw [hff] at hmiss
        exact hmiss
  rw [h]

/-- Trace of `n` successive `get` calls with the same image, image user and
pass name, threading the container and context through. -/
def CachedImageContainer.getN (image : Image) (image_user : ImageUser) (pass_name : String) :
    Nat → CachedImageContainer → Context → List GetResult
  | 0, _, _ => []
  | n + 1, container, context =>
    (container.get context (some image) (some image_user) pass_name) ::
      CachedImageContainer.getN image image_user pass_name n
        (container.get context (some image) (some image_user) pass_name).container
        (container.get context (some image) (some image_user) pass_name).context

theorem getN_replicate (image : Image) (image_user : ImageUser) (pass_name : String)
    (r : GetResult) (container : CachedImageContainer) (context : Context)
    (hr : container.get context (some image) (some image_user) pass_name = r) :
    ∀ n, CachedImageContainer.getN image image_user pass_name n r.container r.context =
      List.replicate n { r with invoked := false } := by
  intro n
  induction n with
  | zero => rfl
  | succ m ih =>
    rw [CachedImageContainer.getN, get_stable container context image image_user pass_name r hr,
      List.replicate_succ]
    exact congrArg _ ih

/-! ### Concrete fixtures used by witnesses -/

/-- Concrete image used by witnesses: a local single-layer image whose source
yields a buffer for every image user. -/
def exImage : Image :=
  { id_name := "IMtest", lib_name := none, is_multiview := false, is_multilayer := false,
    rr_layers := [], rr_views := [], frame_calc := fun f => f,
    buffer := some (fun _ => { data := 7 }), linearize := fun b => b,
    multilayer_index := fun u => u, multiview_index := fun u => u }

/-- Concrete image used by witnesses whose source yields no buffer at all. -/
def exBrokenImage : Image :=
  { id_name := "IMbroken", lib_name := none, is_multiview := false, is_multilayer := false,
    rr_layers := [], rr_views := [], frame_calc := fun f => f,
    buffer := none, linearize := fun b => b,
    multilayer_index := fun u => u, multiview_index := fun u => u }

/-- Concrete image user used by witnesses. -/
def exUser : ImageUser := { framenr := 1, layer := 0, view := 0, pass := 0 }

/-- Concrete evaluation context used by witnesses: no recalculation flag set. -/
def exContext : Context :=
  { frame_number := 5, view_name := "left", use_gpu := false, recalc_ids := [] }

/-- Concrete empty container used by witnesses. -/
def exContainer : CachedImageContainer := { map_ := [] }

/-! ### Claim theorems for the cached-image container -/

/-- C1: for every (owner identity, key) pair, within one evaluation pass (no
intervening `reset`), calling `CachedImageContainer::get` `n ≥ 1` times with the
same image, image user and pass name invokes the `CachedImage` factory exactly
once, and every call after the first returns the already cached entry's result
rather than computing a new one. -/
theorem C1_factory_invoked_exactly_once (container : CachedImageContainer)
    (context : Context) (image : Image) (image_user : ImageUser) (pass_name : String)
    (n : Nat)
    (hmiss : container.lookup image.id_key (getKey context image image_user pass_name) = none)
    (hn : 1 ≤ n) :
    (CachedImageContainer.getN image image_user pass_name n container context).countP
        (fun r => r.invoked) = 1 ∧
      ∀ r ∈ CachedImageContainer.getN image image_user pass_name n container context,
        r.result = (container.get context (some image) (some image_user) pass_name).result := by
  obtain ⟨m, rfl⟩ : ∃ m, n = m + 1 := ⟨n - 1, (Nat.succ_pred_eq_of_pos hn).symm⟩
  have hlist : CachedImageContainer.getN image image_user pass_name (m + 1) container context =
      (container.get context (some image) (some image_user) pass_name) ::
        List.replicate m
          { container.get context (some image) (some image_user) pass_name
            with invoked := false } := by
    rw [CachedImageContainer.getN]
    exact congrArg _ (getN_replicate image image_user pass_name _ container context rfl m)
  have hinv : (container.get context (some image) (some image_user) pass_name).invoked
      = true := by
    rw [get_miss container context image image_user pass_name hmiss]
    rfl
  constructor
  · rw [hlist, List.countP_cons]
    have h0 : (List.replicate m
        { container.get context (some image) (some image_user) pass_name
          with invoked := false }).countP (fun r => r.invoked) = 0 := by
      rw [List.countP_eq_zero]
      intro a ha
      rw [List.eq_of_mem_replicate ha]
      simp
    rw [h0, hinv]
    rfl
  · rw [hlist]
    intro r hr
    rcases List.mem_cons.mp hr with h | h
    · rw [h]
    · rw [List.eq_of_mem_replicate h]

/-- Closed witness for C1 at a concrete image, user, pass and `n = 3`. -/
theorem C1_factory_invoked_exactly_once_witness :
    exContainer.lookup exImage.id_key (getKey exContext exImage exUser "Combined") = none ∧
      1 ≤ 3 ∧
      ((CachedImageContainer.getN exImage exUser "Combined" 3 exContainer exContext).countP
          (fun r => r.invoked) = 1 ∧
        ∀ r ∈ CachedImageContainer.getN exImage exUser "Combined" 3 exContainer exContext,
          r.result =
            (exContainer.get exContext (some exImage) (some exUser) "Combined").result) :=
  ⟨rfl, by decide,
    C1_factory_invoked_exactly_once exContainer exContext exImage exUser "Combined" 3 rfl
      (by decide)⟩

/-- C10: if the image pointer or the image-user pointer passed to
`CachedImageContainer::get` is null, `get` returns an empty default `Result`
immediately and leaves the cache state (and context) completely unchanged. -/
theorem C10_null_inputs_leave_cache_unchanged (container : CachedImageContainer)
    (context : Context) (image : Option Image) (image_user : Option ImageUser)
    (pass_name : String) (h : image = none ∨ image_user = none) :
    container.get context image image_user pass_name =
      { result := Result.empty, container := container, context := context,
        invoked := false } := by
  rcases h with h | h
  · subst h
    rfl
  · subst h
    cases image with
    | none => rfl
    | some i => rfl

/-- Closed witness for C10 at a null image pointer. -/
theorem C10_null_inputs_leave_cache_unchanged_witness :
    exContainer.get exContext none (some exUser) "Combined" =
      { result := Result.empty, container := exContainer, context := exContext,
        invoked := false } :=
  C10_null_inputs_leave_cache_unchanged exContainer exContext none (some exUser) "Combined"
    (Or.inl rfl)

/-- Concrete evaluation context whose recalculation flag is set for `exImage`. -/
def exRecalcContext : Context :=
  { frame_number := 5, view_name := "left", use_gpu := false, recalc_ids := ["IMtest"] }

/-- C3: for every owner whose recalculation flag (queried from the evaluation
context) indicates invalidation, `get` clears all cached entries of that owner
before the key lookup: the call re-invokes the factory and afterwards the
owner's map holds exactly the freshly constructed entry. -/
theorem C3_recalc_flag_invalidates_owner (container : CachedImageContainer)
    (context : Context) (image : Image) (image_user : ImageUser) (pass_name : String)
    (hflag : context.recalc_ids.contains image.id_key = true) :
    (container.get context (some image) (some image_user) pass_name).invoked = true ∧
      alistFind strBeq
          (container.get context (some image) (some image_user) pass_name).container.map_
          image.id_key =
        some [(getKey context image image_user pass_name,
          { CachedImage.make (consume context image.id_key) image
              (getKey context image image_user pass_name).image_user pass_name
            with needed := true })] := by
  have hinner : getInner container context image = [] := by
    unfold getInner
    rw [if_pos hflag]
  have hget : container.get context (some image) (some image_user) pass_name =
      getOutcome container (consume context image.id_key) image.id_key []
        (getKey context image image_user pass_name)
        (CachedImage.make (consume context image.id_key) image
          (getKey context image image_user pass_name).image_user pass_name) true := by
    rw [get_some_eq, hinner]
    rfl
  rw [hget]
  refine ⟨rfl, ?_⟩
  show alistFind strBeq
      (alistSet strBeq container.map_ image.id_key
        (alistSet CachedImageKey.beq [] (getKey context image image_user pass_name)
          { CachedImage.make (consume context image.id_key) image
              (getKey context image image_user pass_name).image_user pass_name
            with needed := true })) image.id_key = _
  rw [alistFind_alistSet_self strBeq container.map_ image.id_key _ (strBeq_refl _)]
  rfl

/-- Closed witness for C3: a previously cached entry for the same key is
discarded and the factory re-invoked once the owner's flag is set. -/
theorem C3_recalc_flag_invalidates_owner_witness :
    exContext.recalc_ids.contains exImage.id_key = false ∧
      exRecalcContext.recalc_ids.contains exImage.id_key = true ∧
      ((exContainer.get exContext (some exImage) (some exUser) "Combined").container.get
          exRecalcContext (some exImage) (some exUser) "Combined").invoked = true := by
  refine ⟨rfl, rfl, ?_⟩
  exact (C3_recalc_flag_invalidates_owner
    (exContainer.get exContext (some exImage) (some exUser) "Combined").container
    exRecalcContext exImage exUser "Combined" rfl).1

/-- C4: when the factory fails to produce a resource (the source image yields no
buffer), `get` still returns the valid empty sentinel result, the empty result
is recorded in the cache, and a subsequent `get` for the same (owner, key)
returns the same cached empty result without re-invoking the factory. -/
theorem C4_failed_factory_caches_empty_result (container : CachedImageContainer)
    (context : Context) (image : Image) (image_user : ImageUser) (pass_name : String)
    (hbuf : image.buffer = none)
    (hmiss : container.lookup image.id_key (getKey context image image_user pass_name) = none) :
    (container.get context (some image) (some image_user) pass_name).result = Result.empty ∧
      (container.get context (some image) (some image_user) pass_name).invoked = true ∧
      ((container.get context (some image) (some image_user) pass_name).container.get
          (container.get context (some image) (some image_user) pass_name).context
          (some image) (some image_user) pass_name).result = Result.empty ∧
      ((container.get context (some image) (some image_user) pass_name).container.get
          (container.get context (some image) (some image_user) pass_name).context
          (some image) (some image_user) pass_name).invoked = false := by
  have hmake : CachedImage.make (consume context image.id_key) image
      (getKey context image image_user pass_name).image_user pass_name =
      { result := Result.empty, needed := true } := by
    unfold CachedImage.make
    rw [hbuf]
  have hget := get_miss container context image image_user pass_name hmiss
  have hres : (container.get context (some image) (some image_user) pass_name).result =
      Result.empty := by
    rw [hget, hmake]
    rfl
  have hstable := get_stable container context image image_user pass_name
    (container.get context (some image) (some image_user) pass_name) rfl
  refine ⟨hres, ?_, ?_, ?_⟩
  · rw [hget]
    rfl
  · rw [hstable]
    exact hres
  · rw [hstable]

/-- Closed witness for C4 at a concrete image whose source yields no buffer. -/
theorem C4_failed_factory_caches_empty_result_witness :
    exBrokenImage.buffer = none ∧
      exContainer.lookup exBrokenImage.id_key
          (getKey exContext exBrokenImage exUser "Combined") = none ∧
      ((exContainer.get exContext (some exBrokenImage) (some exUser) "Combined").result =
          Result.empty ∧
        (exContainer.get exContext (some exBrokenImage) (some exUser) "Combined").invoked =
          true ∧
        ((exContainer.get exContext (some exBrokenImage) (some exUser) "Combined").container.get
            (exContainer.get exContext (some exBrokenImage) (some exUser) "Combined").context
            (some exBrokenImage) (some exUser) "Combined").result = Result.empty ∧
        ((exContainer.get exContext (some exBrokenImage) (some exUser) "Combined").container.get
            (exContainer.get exContext (some exBrokenImage) (some exUser) "Combined").context
            (some exBrokenImage) (some exUser) "Combined").invoked = false) :=
  ⟨rfl, rfl,
    C4_failed_factory_caches_empty_result exContainer exContext exBrokenImage exUser "Combined"
      rfl rfl⟩

/-! ### Characterising `reset` -/

theorem strBeq_iff (a b : String) : strBeq a b = true ↔ a = b := by
  simp [strBeq]

theorem CachedImageKey.beq_iff (a b : CachedImageKey) :
    CachedImageKey.beq a b = true ↔
      (a.image_user.framenr = b.image_user.framenr ∧ a.image_user.layer = b.image_user.layer ∧
        a.image_user.view = b.image_user.view ∧ a.pass_name = b.pass_name) := by
  simp [CachedImageKey.beq, and_assoc]

theorem CachedImageKey.beq_symm (a b : CachedImageKey) (h : CachedImageKey.beq a b = true) :
    CachedImageKey.beq b a = true := by
  rw [CachedImageKey.beq_iff] at h ⊢
  exact ⟨h.1.symm, h.2.1.symm, h.2.2.1.symm, h.2.2.2.symm⟩

theorem CachedImageKey.beq_trans (a b c : CachedImageKey)
    (hab : CachedImageKey.beq a b = true) (hbc : CachedImageKey.beq b c = true) :
    CachedImageKey.beq a c = true := by
  rw [CachedImageKey.beq_iff] at hab hbc ⊢
  exact ⟨hab.1.trans hbc.1, hab.2.1.trans hbc.2.1, hab.2.2.1.trans hbc.2.2.1,
    hab.2.2.2.trans hbc.2.2.2⟩

theorem find_none_of_all {α β : Type} (beq : α → α → Bool) (l : List (α × β)) (a : α)
    (h : ∀ e ∈ l, beq e.1 a = false) : alistFind beq l a = none := by
  induction l with
  | nil => rfl
  | cons e rest ih =>
    obtain ⟨k, v⟩ := e
    rw [alistFind_cons, h (k, v) (List.mem_cons_self _ _)]
    exact ih (fun e he => h e (List.mem_cons_of_mem _ he))

theorem alistFind_mem {α β : Type} (beq : α → α → Bool) (l : List (α × β)) (a : α) (v : β)
    (h : alistFind beq l a = some v) : ∃ k, (k, v) ∈ l ∧ beq k a = true := by
  induction l with
  | nil => simp [alistFind] at h
  | cons e rest ih =>
    obtain ⟨k, w⟩ := e
    by_cases hk : beq k a = true
    · rw [alistFind_cons, if_pos hk] at h
      obtain rfl : w = v := by injection h
      exact ⟨k, List.mem_cons_self _ _, hk⟩
    · rw [alistFind_cons, if_neg hk] at h
      obtain ⟨k', hmem, hbeq⟩ := ih h
      exact ⟨k', List.mem_cons_of_mem _ hmem, hbeq⟩

theorem isEmpty_map {α β : Type} (f : α → β) (l : List α) : (l.map f).isEmpty = l.isEmpty := by
  cases l <;> rfl

/-- Per-owner effect of `reset`: drop the entries whose `needed` flag is false,
clear the flag on the survivors. -/
def resetInner (inner : CachedImagesForId) : CachedImagesForId :=
  (inner.filter (fun item => item.2.needed)).map
    (fun item => (item.1, { item.2 with needed := false }))

theorem resetInner_cons (item : CachedImageKey × CachedImage) (rest : CachedImagesForId) :
    resetInner (item :: rest) =
      if item.2.needed then (item.1, { item.2 with needed := false }) :: resetInner rest
      else resetInner rest := by
  unfold resetInner
  rw [List.filter_cons]
  cases hn : item.2.needed
  · simp [hn]
  · simp [hn]

theorem resetInner_keys (inner : CachedImagesForId) :
    ∀ e ∈ resetInner inner, ∃ e' ∈ inner, e.1 = e'.1 := by
  intro e he
  unfold resetInner at he
  obtain ⟨item, hmem, rfl⟩ := List.mem_map.mp he
  exact ⟨item, List.mem_of_mem_filter hmem, rfl⟩

theorem resetInner_nil_iff (inner : CachedImagesForId) :
    resetInner inner = [] ↔ ∀ e ∈ inner, e.2.needed = false := by
  unfold resetInner
  rw [List.map_eq_nil_iff, List.filter_eq_nil_iff]
  constructor
  · intro h e he
    have := h e he
    simpa using this
  · intro h e he
    simp [h e he]

/-- Whole-container effect of `reset` expressed per owner. -/
def resetOuter (l : List (String × CachedImagesForId)) : List (String × CachedImagesForId) :=
  (l.map (fun e => (e.1, resetInner e.2))).filter (fun e => !e.2.isEmpty)

theorem resetOuter_cons (e : String × CachedImagesForId) (rest : List (String × CachedImagesForId)) :
    resetOuter (e :: rest) =
      if (resetInner e.2).isEmpty then resetOuter rest
      else (e.1, resetInner e.2) :: resetOuter rest := by
  unfold resetOuter
  rw [List.map_cons, List.filter_cons]
  cases hn : (resetInner e.2).isEmpty
  · simp [hn]
  · simp [hn]

theorem resetOuter_keys (l : List (String × CachedImagesForId)) :
    ∀ e ∈ resetOuter l, ∃ e' ∈ l, e.1 = e'.1 := by
  intro e he
  unfold resetOuter at he
  obtain ⟨item, hmem, rfl⟩ := List.mem_map.mp (List.mem_of_mem_filter he)
  exact ⟨item, hmem, rfl⟩

theorem reset_lists (l : List (String × CachedImagesForId)) :
    List.map (fun e => (e.1, e.2.map (fun item => (item.1, { item.2 with needed := false }))))
        (List.filter (fun e => !e.2.isEmpty)
          (List.map (fun e => (e.1, e.2.filter (fun item => item.2.needed))) l)) =
      resetOuter l := by
  induction l with
  | nil => rfl
  | cons e rest ih =>
    have hemp : (resetInner e.2).isEmpty = (e.2.filter (fun item => item.2.needed)).isEmpty :=
      isEmpty_map _ _
    rw [List.map_cons, List.filter_cons, resetOuter_cons, hemp]
    cases hn : (e.2.filter (fun item => item.2.needed)).isEmpty
    · simp [resetInner, ih]
    · simp [ih]

theorem reset_eq (container : CachedImageContainer) :
    container.reset = { map_ := resetOuter container.map_ } := by
  unfold CachedImageContainer.reset
  exact congrArg CachedImageContainer.mk (reset_lists container.map_)

theorem resetInner_find (inner : CachedImagesForId) (key : CachedImageKey)
    (hpw : inner.Pairwise (fun a b => CachedImageKey.beq a.1 b.1 = false)) :
    alistFind CachedImageKey.beq (resetInner inner) key =
      (alistFind CachedImageKey.beq inner key).bind
        (fun e => if e.needed then some { e with needed := false } else none) := by
  induction inner with
  | nil => rfl
  | cons item rest ih =>
    rw [List.pairwise_cons] at hpw
    obtain ⟨hhead, hrest⟩ := hpw
    obtain ⟨k0, e0⟩ := item
    rw [resetInner_cons, alistFind_cons]
    by_cases hk : CachedImageKey.beq k0 key = true
    · rw [if_pos hk]
      cases hneed : e0.needed
      · simp only [hneed, Bool.false_eq_true, if_false]
        rw [find_none_of_all]
        · simp [hneed]
        · intro e he
          obtain ⟨e', he', hkey_eq⟩ := resetInner_keys rest e he
          by_contra hb
          simp only [Bool.not_eq_false] at hb
          have h1 : CachedImageKey.beq key e.1 = true := CachedImageKey.beq_symm _ _ hb
          have h2 : CachedImageKey.beq k0 e.1 = true := CachedImageKey.beq_trans _ _ _ hk h1
          rw [hkey_eq] at h2
          rw [hhead e' he'] at h2
          exact Bool.false_ne_true h2
      · simp only [hneed, if_true]
        rw [alistFind_cons, if_pos hk]
        simp [hneed]
    · rw [if_neg hk]
      cases hneed : e0.needed
      · simp only [hneed, Bool.false_eq_true, if_false]
        exact ih hrest
      · simp only [hneed, if_true]
        rw [alistFind_cons, if_neg hk]
        exact ih hrest

/-- Lookup in a raw outer list, matching `CachedImageContainer.lookup`. -/
def lookupList (l : List (String × CachedImagesForId)) (id_key : String)
    (key : CachedImageKey) : Option CachedImage :=
  match alistFind strBeq l id_key with
  | none => none
  | some inner => alistFind CachedImageKey.beq inner key

theorem lookupList_cons (k0 : String) (inner0 : CachedImagesForId)
    (rest : List (String × CachedImagesForId)) (id_key : String) (key : CachedImageKey) :
    lookupList ((k0, inner0) :: rest) id_key key =
      if strBeq k0 id_key then alistFind CachedImageKey.beq inner0 key
      else lookupList rest id_key key := by
  unfold lookupList
  rw [alistFind_cons]
  by_cases h : strBeq k0 id_key = true
  · rw [if_pos h, if_pos h]
  · rw [if_neg h, if_neg h]

theorem resetOuter_lookup (l : List (String × CachedImagesForId))
    (houter : l.Pairwise (fun a b => a.1 ≠ b.1))
    (hinner : ∀ e ∈ l, e.2.Pairwise (fun a b => CachedImageKey.beq a.1 b.1 = false))
    (id_key : String) (key : CachedImageKey) :
    lookupList (resetOuter l) id_key key =
      (lookupList l id_key key).bind
        (fun e => if e.needed then some { e with needed := false } else none) := by
  induction l with
  | nil => rfl
  | cons e rest ih =>
    rw [List.pairwise_cons] at houter
    obtain ⟨hodist, horest⟩ := houter
    have hirest : ∀ x ∈ rest, x.2.Pairwise (fun a b => CachedImageKey.beq a.1 b.1 = false) :=
      fun x hx => hinner x (List.mem_cons_of_mem _ hx)
    have hihead : e.2.Pairwise (fun a b => CachedImageKey.beq a.1 b.1 = false) :=
      hinner e (List.mem_cons_self _ _)
    obtain ⟨k0, inner0⟩ := e
    rw [resetOuter_cons, lookupList_cons]
    by_cases he : strBeq k0 id_key = true
    · rw [if_pos he]
      cases hemp : resetInner inner0 with
      | nil =>
        simp only [hemp, List.isEmpty_nil, if_true]
        have hall : ∀ a ∈ inner0, a.2.needed = false := (resetInner_nil_iff inner0).mp hemp
        have hnone : alistFind strBeq (resetOuter rest) id_key = none := by
          apply find_none_of_all
          intro x hx
          obtain ⟨x', hx', hkey_eq⟩ := resetOuter_keys rest x hx
          have hne : x'.1 ≠ k0 := fun h => hodist x' hx' h.symm
          rw [hkey_eq]
          by_contra hb
          simp only [Bool.not_eq_false] at hb
          exact hne ((strBeq_iff _ _).mp hb ▸ ((strBeq_iff k0 id_key).mp he) ▸ rfl)
        unfold lookupList
        rw [hnone]
        cases hf : alistFind CachedImageKey.beq inner0 key with
        | none => rfl
        | some v =>
          obtain ⟨k, hkmem, _⟩ := alistFind_mem _ _ _ _ hf
          have : v.needed = false := hall (k, v) hkmem
          simp [this]
      | cons hd tl =>
        simp only [hemp, List.isEmpty_cons, Bool.false_eq_true, if_false]
        rw [lookupList_cons, if_pos he, ← hemp]
        exact resetInner_find inner0 key hihead
    · rw [if_neg he]
      cases hemp : resetInner inner0 with
      | nil =>
        simp only [hemp, List.isEmpty_nil, if_true]
        exact ih horest hirest
      | cons hd tl =>
        simp only [hemp, List.isEmpty_cons, Bool.false_eq_true, if_false]
        rw [lookupList_cons, if_neg he]
        exact ih horest hirest

theorem resetOuter_owner_none (l : List (String × CachedImagesForId))
    (houter : l.Pairwise (fun a b => a.1 ≠ b.1)) (id_key : String) :
    alistFind strBeq (resetOuter l) id_key = none ↔
      ∀ inner, alistFind strBeq l id_key = some inner → ∀ e ∈ inner, e.2.needed = false := by
  induction l with
  | nil =>
    constructor
    · intro _ inner h
      simp [alistFind] at h
    · intro _
      rfl
  | cons e rest ih =>
    rw [List.pairwise_cons] at houter
    obtain ⟨hodist, horest⟩ := houter
    obtain ⟨k0, inner0⟩ := e
    rw [resetOuter_cons]
    by_cases he : strBeq k0 id_key = true
    · cases hemp : resetInner inner0 with
      | nil =>
        simp only [hemp, List.isEmpty_nil, if_true]
        have hall : ∀ a ∈ inner0, a.2.needed = false := (resetInner_nil_iff inner0).mp hemp
        have hnone : alistFind strBeq (resetOuter rest) id_key = none := by
          apply find_none_of_all
          intro x hx
          obtain ⟨x', hx', hkey_eq⟩ := resetOuter_keys rest x hx
          have hne : x'.1 ≠ k0 := fun h => hodist x' hx' h.symm
          rw [hkey_eq]
          by_contra hb
          simp only [Bool.not_eq_false] at hb
          exact hne ((strBeq_iff _ _).mp hb ▸ ((strBeq_iff k0 id_key).mp he) ▸ rfl)
        constructor
        · intro _ inner hfind
          rw [alistFind_cons, if_pos he] at hfind
          obtain rfl : inner0 = inner := by injection hfind
          exact hall
        · intro _
          exact hnone
      | cons hd tl =>
        simp only [hemp, List.isEmpty_cons, Bool.false_eq_true, if_false]
        constructor
        · intro hfind
          rw [alistFind_cons, if_pos he] at hfind
          exact absurd hfind (by simp)
        · intro hneed
          have hall : ∀ a ∈ inner0, a.2.needed = false :=
            hneed inner0 (by rw [alistFind_cons, if_pos he])
          have : resetInner inner0 = [] := (resetInner_nil_iff inner0).mpr hall
          rw [this] at hemp
          exact absurd hemp (by simp)
    · cases hemp : resetInner inner0 with
      | nil =>
        simp only [hemp, List.isEmpty_nil, if_true]
        rw [ih horest]
        constructor
        · intro h inner hfind
          rw [alistFind_cons, if_neg he] at hfind
          exact h inner hfind
        · intro h inner hfind
          exact h inner (by rw [alistFind_cons, if_neg he]; exact hfind)
      | cons hd tl =>
        simp only [hemp, List.isEmpty_cons, Bool.false_eq_true, if_false]
        rw [alistFind_cons, if_neg he, ih horest]
        constructor
        · intro h inner hfind
          rw [alistFind_cons, if_neg he] at hfind
          exact h inner hfind
        · intro h inner hfind
          exact h inner (by rw [alistFind_cons, if_neg he]; exact hfind)

theorem lookup_eq_lookupList (container : CachedImageContainer) (id_key : String)
    (key : CachedImageKey) :
    container.lookup id_key key = lookupList container.map_ id_key key := rfl

/-- C2: for every cache state (with the key-uniqueness invariant `blender::Map`
maintains), `reset` removes exactly those entries whose `needed` flag is false,
removes every owner whose inner map has become empty, and clears `needed` on
every surviving entry; consequently a key absent after a `reset` makes a later
`get` for it re-invoke the factory. -/
theorem C2_reset_prunes_unneeded_entries (container : CachedImageContainer)
    (houter : container.map_.Pairwise (fun a b => a.1 ≠ b.1))
    (hinner : ∀ e ∈ container.map_,
      e.2.Pairwise (fun a b => CachedImageKey.beq a.1 b.1 = false)) :
    (∀ id_key key, container.reset.lookup id_key key =
        (container.lookup id_key key).bind
          (fun e => if e.needed then some { e with needed := false } else none)) ∧
      (∀ id_key, alistFind strBeq container.reset.map_ id_key = none ↔
        ∀ inner, alistFind strBeq container.map_ id_key = some inner →
          ∀ e ∈ inner, e.2.needed = false) ∧
      (∀ context image image_user pass_name,
        container.reset.lookup image.id_key (getKey context image image_user pass_name) =
          none →
        (container.reset.get context (some image) (some image_user) pass_name).invoked =
          true) := by
  refine ⟨?_, ?_, ?_⟩
  · intro id_key key
    rw [lookup_eq_lookupList, lookup_eq_lookupList, reset_eq]
    exact resetOuter_lookup container.map_ houter hinner id_key key
  · intro id_key
    rw [reset_eq]
    exact resetOuter_owner_none container.map_ houter id_key
  · intro context image image_user pass_name hmiss
    rw [get_miss _ _ _ _ _ hmiss]
    rfl

/-- Concrete key (frame 5) used by the C2 witness. -/
def exKeyA : CachedImageKey :=
  { image_user := { framenr := 5, layer := 0, view := 0, pass := 0 }, pass_name := "Combined" }

/-- Concrete key (frame 6) used by the C2 witness. -/
def exKeyB : CachedImageKey :=
  { image_user := { framenr := 6, layer := 0, view := 0, pass := 0 }, pass_name := "Combined" }

/-- Concrete cache state with a needed entry, an unneeded entry and an owner
whose entries are all unneeded. -/
def exCacheState : CachedImageContainer :=
  { map_ := [("IMtest", [(exKeyA, { result := Result.empty, needed := true }),
                          (exKeyB, { result := Result.empty, needed := false })]),
              ("IMother", [(exKeyA, { result := Result.empty, needed := false })])] }

/-- Closed witness for C2: at a concrete cache state, after `reset` the
unneeded entry is gone while the needed entry survives with its flag cleared. -/
theorem C2_reset_prunes_unneeded_entries_witness :
    exCacheState.map_.Pairwise (fun a b => a.1 ≠ b.1) ∧
      (∀ e ∈ exCacheState.map_,
        e.2.Pairwise (fun a b => CachedImageKey.beq a.1 b.1 = false)) ∧
      exCacheState.reset.lookup "IMtest" exKeyB =
        (exCacheState.lookup "IMtest" exKeyB).bind
          (fun e => if e.needed then some { e with needed := false } else none) :=
  ⟨by decide, by decide,
    (C2_reset_prunes_unneeded_entries exCacheState (by decide) (by decide)).1 "IMtest" exKeyB⟩

/-- Concrete key beq-equal to `exKeyA` but differing in the ignored `pass`
member of the stored image user. -/
def exKeyA' : CachedImageKey :=
  { image_user := { framenr := 5, layer := 0, view := 0, pass := 9 }, pass_name := "Combined" }

/-- C5: two `CachedImageKey`s are equal iff all four discriminant fields
(frame number, layer index, view index, pass-name string) compare equal; equal
keys have equal hash values; and keys differing in any one of the four fields
are unequal. -/
theorem C5_key_equality_and_hash (a b : CachedImageKey) :
    (CachedImageKey.beq a b = true ↔
      (a.image_user.framenr = b.image_user.framenr ∧
        a.image_user.layer = b.image_user.layer ∧
        a.image_user.view = b.image_user.view ∧ a.pass_name = b.pass_name)) ∧
      (CachedImageKey.beq a b = true → CachedImageKey.hash a = CachedImageKey.hash b) ∧
      ((a.image_user.framenr ≠ b.image_user.framenr ∨ a.image_user.layer ≠ b.image_user.layer ∨
          a.image_user.view ≠ b.image_user.view ∨ a.pass_name ≠ b.pass_name) →
        CachedImageKey.beq a b = false) := by
  refine ⟨CachedImageKey.beq_iff a b, ?_, ?_⟩
  · intro h
    rw [CachedImageKey.beq_iff] at h
    unfold CachedImageKey.hash get_default_hash
    rw [h.1, h.2.1, h.2.2.1, h.2.2.2]
  · intro h
    cases hb : CachedImageKey.beq a b
    · rfl
    · exfalso
      have hfields := (CachedImageKey.beq_iff a b).mp hb
      rcases h with h | h | h | h
      · exact h hfields.1
      · exact h hfields.2.1
      · exact h hfields.2.2.1
      · exact h hfields.2.2.2

/-- Closed witness for C5: `exKeyA` and `exKeyA'` compare equal (they differ
only in the ignored `pass` member) and therefore hash equal, while `exKeyA` and
`exKeyB` differ in the frame number and compare unequal. -/
theorem C5_key_equality_and_hash_witness :
    CachedImageKey.beq exKeyA exKeyA' = true ∧
      CachedImageKey.hash exKeyA = CachedImageKey.hash exKeyA' ∧
      CachedImageKey.beq exKeyA exKeyB = false :=
  ⟨by decide, (C5_key_equality_and_hash exKeyA exKeyA').2.1 (by decide),
    (C5_key_equality_and_hash exKeyA exKeyB).2.2 (Or.inl (by decide))⟩

/-! ### Node-graph utilities (`utilities.cc`)

The derived node tree (`NOD_derived_node_tree.hh`) is an external collaborator
of `utilities.cc`; its traversals are modelled from the specification while the
analysed functions themselves are embedded verbatim on top of that model. -/

/-- Socket reference of the derived node tree: a `DSocket` holds either an
input socket, an output socket, or nothing (a default-constructed, null
`DOutputSocket`). -/
inductive DSocket where
  | input (id : Nat)
  | output (id : Nat)
  | null
deriving DecidableEq, Repr

/-- Modelled from the spec: the derived-node-tree link structure read by
`get_input_origin_socket` (`NOD_derived_node_tree.hh` is not in the analysed
sources).  `link` gives the single origin output of an input socket, if any
(single-origin model), and `reroute o = some i` says the output `o` belongs to
a reroute node whose input socket is `i`. -/
structure NodeGraph where
  link : Nat → Option Nat
  reroute : Nat → Option Nat

/-- Modelled from the spec: the origin sockets that `foreach_origin_socket`
visits for an input, traversing reroute hops transparently; `fuel` bounds the
chain length so the traversal is total. -/
def logicalOrigins (g : NodeGraph) : Nat → Nat → List DSocket
  | 0, _ => []
  | fuel + 1, input_id =>
    match g.link input_id with
    | none => []
    | some output_id =>
      match g.reroute output_id with
      | some reroute_input => logicalOrigins g fuel reroute_input
      | none => [DSocket.output output_id]

/-- Modelled from the spec: `is_logically_linked` — an input is logically
linked when the traversal yields at least one origin. -/
def is_logically_linked (g : NodeGraph) (fuel input_id : Nat) : Bool :=
  !(logicalOrigins g fuel input_id).isEmpty

/-- Embeds `get_input_origin_socket`: an unlinked input returns the input
socket itself; otherwise the single origin assigned by the traversal is
returned (the source overwrites one variable per visited origin and keeps the
last). -/
def get_input_origin_socket (g : NodeGraph) (fuel input_id : Nat) : DSocket :=
  if !(is_logically_linked g fuel input_id) then DSocket.input input_id
  else ((logicalOrigins g fuel input_id).getLast?).getD DSocket.null

/-- Embeds `get_output_linked_to_input`: resolve the origin of the input; if
the origin is an input socket the input is unlinked and a null output socket is
returned, otherwise the origin output is returned. -/
def get_output_linked_to_input (g : NodeGraph) (fuel input_id : Nat) : DSocket :=
  match get_input_origin_socket g fuel input_id with
  | DSocket.input _ => DSocket.null
  | origin => origin

/-- The input socket reaches the output socket through exactly `hops` reroute
nodes. -/
inductive ChainsTo (g : NodeGraph) : Nat → Nat → Nat → Prop
  | direct (input_id output_id : Nat) (hlink : g.link input_id = some output_id)
      (hnot : g.reroute output_id = none) : ChainsTo g 0 input_id output_id
  | reroute_hop (hops input_id r_out r_in output_id : Nat)
      (hlink : g.link input_id = some r_out) (hre : g.reroute r_out = some r_in)
      (hrest : ChainsTo g hops r_in output_id) : ChainsTo g (hops + 1) input_id output_id

theorem logicalOrigins_of_chain (g : NodeGraph) (hops : Nat) :
    ∀ fuel input_id output_id, hops < fuel → ChainsTo g hops input_id output_id →
      logicalOrigins g fuel input_id = [DSocket.output output_id] := by
  induction hops with
  | zero =>
    intro fuel input_id output_id hlt hchain
    obtain ⟨f, rfl⟩ : ∃ f, fuel = f + 1 := ⟨fuel - 1, (Nat.succ_pred_eq_of_pos hlt).symm⟩
    cases hchain with
    | direct _ _ hlink hnot => simp only [logicalOrigins, hlink, hnot]
  | succ m ih =>
    intro fuel input_id output_id hlt hchain
    obtain ⟨f, rfl⟩ : ∃ f, fuel = f + 1 := ⟨fuel - 1, (Nat.succ_pred_eq_of_pos (Nat.lt_of_le_of_lt (Nat.zero_le _) hlt)).symm⟩
    cases hchain with
    | reroute_hop _ _ r_out r_in _ hlink hre hrest =>
      simp only [logicalOrigins, hlink, hre]
      exact ih f r_in output_id (Nat.lt_of_succ_lt_succ hlt) hrest

/-- C6: input-origin resolution returns the null sentinel for an unlinked
input; and for an input linked to a single origin output through any number of
reroute hops (each below the traversal bound), it returns that origin output
socket regardless of hop count. -/
theorem C6_input_origin_resolution (g : NodeGraph) (fuel input_id output_id hops : Nat) :
    (g.link input_id = none →
        get_output_linked_to_input g fuel input_id = DSocket.null) ∧
      (hops < fuel → ChainsTo g hops input_id output_id →
        get_output_linked_to_input g fuel input_id = DSocket.output output_id) := by
  constructor
  · intro hnone
    have horig : logicalOrigins g fuel input_id = [] := by
      cases fuel with
      | zero => rfl
      | succ f => simp only [logicalOrigins, hnone]
    unfold get_output_linked_to_input get_input_origin_socket is_logically_linked
    rw [horig]
    rfl
  · intro hlt hchain
    have horig := logicalOrigins_of_chain g hops fuel input_id output_id hlt hchain
    unfold get_output_linked_to_input get_input_origin_socket is_logically_linked
    rw [horig]
    rfl

/-- Concrete graph for the C6 witness: input 10 reaches output 5 through two
reroute nodes (outputs 20 and 21); input 99 is unlinked. -/
def exGraph : NodeGraph :=
  { link := fun i =>
      if i = 10 then some 20 else if i = 11 then some 21 else if i = 12 then some 5 else none,
    reroute := fun o => if o = 20 then some 11 else if o = 21 then some 12 else none }

/-- The two-reroute-hop chain from input 10 to output 5 in `exGraph`. -/
def exChain : ChainsTo exGraph 2 10 5 :=
  ChainsTo.reroute_hop 1 10 20 11 5 rfl rfl
    (ChainsTo.reroute_hop 0 11 21 12 5 rfl rfl (ChainsTo.direct 12 5 rfl rfl))

/-- Closed witness for C6: the unlinked input resolves to the null sentinel and
the two-hop input resolves to its origin output. -/
theorem C6_input_origin_resolution_witness :
    exGraph.link 99 = none ∧ 2 < 4 ∧
      get_output_linked_to_input exGraph 4 99 = DSocket.null ∧
      get_output_linked_to_input exGraph 4 10 = DSocket.output 5 :=
  ⟨rfl, by decide, (C6_input_origin_resolution exGraph 4 99 5 2).1 rfl,
    (C6_input_origin_resolution exGraph 4 10 5 2).2 (by decide) exChain⟩

/-- Result data types (`ResultType` in `COM_result.hh`, outside the analysed
sources; the four members produced by `get_node_socket_result_type` are
modelled). -/
inductive ResultType where
  | Float
  | Int
  | Vector
  | Color
deriving DecidableEq, Repr

/-- Socket data types (`eNodeSocketDatatype` of `DNA_node_types.h`, outside the
analysed sources); the constructors cover the four cases the switch handles
plus representatives of the unsupported types that reach the default branch. -/
inductive SocketType where
  | custom
  | float
  | vector
  | rgba
  | shader
  | boolean
  | int
  | string
  | object
  | image
  | geometry
deriving DecidableEq, Repr

/-- Embeds `get_node_socket_result_type`: the switch on `socket->type`; the
default branch is `BLI_assert_unreachable()` followed by the release-build
fallback `return ResultType::Float`. -/
def get_node_socket_result_type (socket_type : SocketType) : ResultType :=
  match socket_type with
  | SocketType.float => ResultType.Float
  | SocketType.int => ResultType.Int
  | SocketType.vector => ResultType.Vector
  | SocketType.rgba => ResultType.Color
  | _ => ResultType.Float

/-- Marks the socket types on which the switch reaches the
`BLI_assert_unreachable()` default branch (a debug-build assert). -/
def socket_result_type_unreachable (socket_type : SocketType) : Bool :=
  match socket_type with
  | SocketType.float | SocketType.int | SocketType.vector | SocketType.rgba => false
  | _ => true

/-- C7: socket-type derivation is a pure total mapping into
{Float, Int, Vector, Color}; the four supported socket types map to their
respective result types and every unsupported type reaches the
`BLI_assert_unreachable` branch (the debug assert) and falls back to Float. -/
theorem C7_socket_result_type_total_with_fallback (s : SocketType) :
    (s = SocketType.float → get_node_socket_result_type s = ResultType.Float) ∧
      (s = SocketType.int → get_node_socket_result_type s = ResultType.Int) ∧
      (s = SocketType.vector → get_node_socket_result_type s = ResultType.Vector) ∧
      (s = SocketType.rgba → get_node_socket_result_type s = ResultType.Color) ∧
      (socket_result_type_unreachable s = true →
        get_node_socket_result_type s = ResultType.Float) := by
  cases s <;>
    simp [get_node_socket_result_type, socket_result_type_unreachable]

/-- Closed witness for C7: the boolean socket type reaches the unreachable
branch and falls back to Float. -/
theorem C7_socket_result_type_total_with_fallback_witness :
    socket_result_type_unreachable SocketType.boolean = true ∧
      get_node_socket_result_type SocketType.boolean = ResultType.Float :=
  ⟨rfl, (C7_socket_result_type_total_with_fallback SocketType.boolean).2.2.2.2 rfl⟩

/-- Embeds `is_output_linked_to_node_conditioned`.  The traversal of
`foreach_target_socket` (derived node tree, outside the analysed sources) is
modelled from the spec as the list of target nodes it yields.  Each visited
target evaluates `condition(target.node())` once — the lambda has no way to
stop `foreach_target_socket` — and a match latches the flag.  The embedding
returns the flag together with the number of predicate invocations. -/
def is_output_linked_to_node_conditioned (targets : List Nat) (condition : Nat → Bool) :
    Bool × Nat :=
  targets.foldl
    (fun acc target =>
      if condition target then (true, acc.2 + 1) else (acc.1, acc.2 + 1))
    (false, 0)

theorem linked_fold_spec (condition : Nat → Bool) (l : List Nat) :
    ∀ b n, l.foldl
        (fun acc target =>
          if condition target then (true, acc.2 + 1) else (acc.1, acc.2 + 1)) (b, n) =
      (b || l.any condition, n + l.length) := by
  induction l with
  | nil =>
    intro b n
    simp
  | cons x xs ih =>
    intro b n
    rw [List.foldl_cons]
    cases hx : condition x
    · rw [if_neg Bool.false_ne_true, ih, List.any_cons, hx, Bool.false_or,
        List.length_cons, ← Nat.add_assoc, Nat.add_right_comm]
    · rw [if_pos rfl, ih, List.any_cons, hx, List.length_cons, Bool.true_or, Bool.or_true,
        ← Nat.add_assoc, Nat.add_right_comm]

/-- C8 counterexample: with two reachable targets whose nodes both satisfy the
predicate, the claim says the predicate is not invoked after the first match
(one invocation in total), but the code invokes it on every reachable target
(two invocations). -/
theorem C8_counterexample_no_short_circuit :
    (is_output_linked_to_node_conditioned [0, 1] (fun _ => true)).2 = 2 ∧
      ¬ (is_output_linked_to_node_conditioned [0, 1] (fun _ => true)).2 = 1 := by decide

/-- C8 (amended): the boolean linked-to query returns true iff some reachable
target's node satisfies the predicate; the flag is latched on the first match
but the traversal does not stop, so the predicate is invoked once per reachable
target. -/
theorem C8_linked_query_latches_without_short_circuit (targets : List Nat)
    (condition : Nat → Bool) :
    (is_output_linked_to_node_conditioned targets condition).1 = targets.any condition ∧
      (is_output_linked_to_node_conditioned targets condition).2 = targets.length := by
  unfold is_output_linked_to_node_conditioned
  rw [linked_fold_spec]
  simp

/-- Node flag bit `NODE_PREVIEW` (`DNA_node_types.h`, outside the analysed
sources; modelled as a fixed bit). -/
def NODE_PREVIEW : Nat := 4

/-- Node flag bit `NODE_HIDDEN` (`DNA_node_types.h`, outside the analysed
sources; modelled as a bit distinct from `NODE_PREVIEW`). -/
def NODE_HIDDEN : Nat := 8

/-- Derived node as read by `is_node_preview_needed`: its flag bitmask, the
instance key of its context and the instance key of the derived tree's active
context (the instance-key machinery is modelled from the spec, as the derived
node tree is outside the analysed sources). -/
structure DNode where
  flag : Nat
  instance_key : Nat
  active_instance_key : Nat
deriving DecidableEq, Repr

/-- Embeds `is_node_preview_needed`: false when the preview flag is unset,
false when the node is hidden, false when the node's instance key differs from
the active context's instance key, and true otherwise. -/
def is_node_preview_needed (node : DNode) : Bool :=
  if node.flag &&& NODE_PREVIEW == 0 then false
  else if node.flag &&& NODE_HIDDEN != 0 then false
  else if node.instance_key != node.active_instance_key then false
  else true

/-- C9: a node needs a preview iff all three conditions hold — the preview flag
is set, the node is not hidden, and the node's instance key equals the active
context's instance key; negating any single condition makes the result false. -/
theorem C9_preview_needed_iff (node : DNode) :
    is_node_preview_needed node = true ↔
      (node.flag &&& NODE_PREVIEW ≠ 0 ∧ node.flag &&& NODE_HIDDEN = 0 ∧
        node.instance_key = node.active_instance_key) := by
  unfold is_node_preview_needed
  by_cases h1 : node.flag &&& NODE_PREVIEW = 0
  · simp [h1]
  · by_cases h2 : node.flag &&& NODE_HIDDEN = 0
    · by_cases h3 : node.instance_key = node.active_instance_key
      · simp [h1, h2, h3]
      · simp [h1, h2, h3]
    · simp [h1, h2]

/-- Concrete preview-eligible node for the C9 witness. -/
def exPreviewNode : DNode := { flag := 4, instance_key := 3, active_instance_key := 3 }

/-- Closed witness for C9: the eligible node returns true, and flipping any one
condition (hiding it, clearing the preview flag, or mismatching the instance
key) returns false. -/
theorem C9_preview_needed_iff_witness :
    is_node_preview_needed exPreviewNode = true ∧
      is_node_preview_needed { exPreviewNode with flag := 12 } = false ∧
      is_node_preview_needed { exPreviewNode with flag := 0 } = false ∧
      is_node_preview_needed { exPreviewNode with instance_key := 7 } = false :=
  ⟨(C9_preview_needed_iff exPreviewNode).mpr ⟨by decide, by decide, by decide⟩,
    by decide, by decide, by decide⟩

end blender.compositor
